import Mathlib

/-!
Verification development for the customer-reward loyalty tracker.

The page component keeps a customer's integer point balance, accrues
points for purchases (`handleAddPoints`), redeems points in fixed dollar
increments (`handleRedeem`, with a $5 variant and a $10 variant),
lists the affordable redemption options (`getRedemptionOptions`),
and shows a date-filtered, newest-first, paginated transaction history
(`loadTransactions`, `paginatedTransactions`, `totalPages`).
Customers are looked up by phone number or name (`handleSearch`).

Numbers flowing through the purchase form are JavaScript numbers, so the
embedding uses an explicit `JSNum` type with a NaN point; balances stored
in the database are integers and are embedded as `ℤ`; counts and
timestamps are `ℕ`.
-/

namespace CustomerReward

/-! ## JavaScript number model

The purchase-amount input is a string coerced with `Number(...)`; a
non-numeric string coerces to NaN.  `JSNum` models the values that can
reach the accrual handler: NaN or a finite number (a rational).  The
operations mirror JavaScript semantics: NaN propagates through
arithmetic and every ordered comparison involving NaN is false. -/

inductive JSNum where
  | NaN : JSNum
  | num (q : ℚ) : JSNum
deriving DecidableEq

/-- JavaScript `Math.floor`: NaN maps to NaN. -/
def jsFloor : JSNum → JSNum
  | .NaN => .NaN
  | .num q => .num (⌊q⌋ : ℤ)

/-- JavaScript `<=`: any comparison with NaN is false. -/
def jsLe : JSNum → JSNum → Bool
  | .NaN, _ => false
  | _, .NaN => false
  | .num a, .num b => decide (a ≤ b)

/-- JavaScript `+` on numbers: NaN propagates. -/
def jsAdd : JSNum → JSNum → JSNum
  | .NaN, _ => .NaN
  | _, .NaN => .NaN
  | .num a, .num b => .num (a + b)

/-! ## Ledger operations -/

/-- A row inserted into the `transactions` table by the accrual path.
`amount` and `points_changed` are JavaScript numbers as computed by the
client before they are sent to the store. -/
structure AccrualTx where
  type : String
  amount : JSNum
  points_changed : JSNum
deriving DecidableEq

/-- Result of `handleAddPoints`: the balance written back to the
customer record, the list of transaction rows inserted, and whether the
invalid-amount error path ran instead. -/
structure AccrueResult where
  total_points : JSNum
  inserted : List AccrualTx
  invalidAmount : Bool
deriving DecidableEq

/-- Handler `handleAddPoints`: `amount = Math.floor(Number(purchaseAmount))`;
if `amount <= 0` the handler errors out with no write, otherwise it
writes `total_points + amount` and inserts one transaction of type
`add` with `amount` and `points_changed` both equal to `amount`. -/
def handleAddPoints (total_points : JSNum) (purchaseAmount : JSNum) : AccrueResult :=
  let amount := jsFloor purchaseAmount
  if jsLe amount (.num 0) then
    { total_points := total_points, inserted := [], invalidAmount := true }
  else
    let newPoints := jsAdd total_points amount
    { total_points := newPoints,
      inserted := [{ type := ("add"), amount := amount, points_changed := amount }],
      invalidAmount := false }

/-- The two error paths of `handleRedeem`. -/
inductive RedeemError where
  | invalidIncrement : RedeemError
  | insufficientPoints : RedeemError
deriving DecidableEq

/-- A row inserted into the `transactions` table by the redemption path. -/
structure RedeemTx where
  type : String
  amount : ℤ
  points_changed : ℤ
deriving DecidableEq

/-- Result of `handleRedeem`: the customer's balance after the call,
the transaction rows inserted, and the error raised if any. -/
structure RedeemResult where
  total_points : ℤ
  inserted : List RedeemTx
  error : Option RedeemError
deriving DecidableEq

/-- Handler `handleRedeem`, $5-increment variant: rejects when
`redeemAmount % 5 !== 0` (JavaScript `%` is truncated remainder, hence
`Int.tmod`), computes `pointsNeeded = (redeemAmount / 5) * 100`,
rejects when `total_points < pointsNeeded`, otherwise writes
`total_points - pointsNeeded` and inserts one transaction of type
`redeem` with the dollar amount and `points_changed = -pointsNeeded`. -/
def handleRedeem5 (total_points : ℤ) (redeemAmount : ℤ) : RedeemResult :=
  if redeemAmount.tmod 5 ≠ 0 then
    { total_points := total_points, inserted := [], error := some .invalidIncrement }
  else
    let pointsNeeded := redeemAmount.tdiv 5 * 100
    if total_points < pointsNeeded then
      { total_points := total_points, inserted := [], error := some .insufficientPoints }
    else
      { total_points := total_points - pointsNeeded,
        inserted := [{ type := ("redeem"), amount := redeemAmount, points_changed := -pointsNeeded }],
        error := none }

/-- Handler `handleRedeem`, $10-increment variant: rejects when
`redeemAmount % 10 !== 0`, computes `pointsNeeded = redeemAmount * 10`,
rejects when `total_points < pointsNeeded`, otherwise writes
`total_points - pointsNeeded` and inserts one `redeem` transaction. -/
def handleRedeem10 (total_points : ℤ) (redeemAmount : ℤ) : RedeemResult :=
  if redeemAmount.tmod 10 ≠ 0 then
    { total_points := total_points, inserted := [], error := some .invalidIncrement }
  else
    let pointsNeeded := redeemAmount * 10
    if total_points < pointsNeeded then
      { total_points := total_points, inserted := [], error := some .insufficientPoints }
    else
      { total_points := total_points - pointsNeeded,
        inserted := [{ type := ("redeem"), amount := redeemAmount, points_changed := -pointsNeeded }],
        error := none }

/-! ## Redemption options -/

/-- The loop `for (let i = 5; i <= maxRedemption; i += 5) options.push(i)`. -/
def optionsGo5 (i maxRedemption : ℕ) : List ℕ :=
  if _h : i ≤ maxRedemption then i :: optionsGo5 (i + 5) maxRedemption else []
termination_by maxRedemption + 1 - i
decreasing_by omega

/-- The loop `for (let i = 10; i <= maxRedemption; i += 10) options.push(i)`. -/
def optionsGo10 (i maxRedemption : ℕ) : List ℕ :=
  if _h : i ≤ maxRedemption then i :: optionsGo10 (i + 10) maxRedemption else []
termination_by maxRedemption + 1 - i
decreasing_by omega

/-- Function `getRedemptionOptions`, $5 variant:
`maxRedemption = Math.floor(points / 100) * 5`, then the options are
collected by a loop from 5 up to `maxRedemption` in steps of 5. -/
def getRedemptionOptions5 (points : ℕ) : List ℕ :=
  optionsGo5 5 (points / 100 * 5)

/-- Function `getRedemptionOptions`, $10 variant:
`maxRedemption = Math.floor(points / 100) * 10`, loop step 10. -/
def getRedemptionOptions10 (points : ℕ) : List ℕ :=
  optionsGo10 10 (points / 100 * 10)

/-! ## Transactions, history query and pagination -/

/-- A stored transaction row, as the history query sees it.
`created_at` is a timestamp in seconds; a calendar date `d` (a day
index) covers the timestamps `[d * 86400, (d + 1) * 86400)`. -/
structure Transaction where
  id : ℕ
  customer_id : ℕ
  created_at : ℕ
deriving DecidableEq

/-- Midnight at the start of day `d`, in seconds. -/
def dayStart (d : ℕ) : ℕ := d * 86400

/-- Newest-first ordering on transactions. -/
def byCreatedDesc (a b : Transaction) : Prop := b.created_at ≤ a.created_at

instance : DecidableRel byCreatedDesc := fun a b => Nat.decLe b.created_at a.created_at

instance : IsTotal Transaction byCreatedDesc :=
  ⟨fun a b => Nat.le_total b.created_at a.created_at⟩

instance : IsTrans Transaction byCreatedDesc :=
  ⟨fun _ _ _ hab hbc => Nat.le_trans hbc hab⟩

/-- Modelled from the spec: the external relational store's
`order('created_at', descending)` primitive — the repository only
issues the query; the store itself sorts.  Embedded as a sort by the
newest-first ordering. -/
def orderByCreatedDesc (l : List Transaction) : List Transaction :=
  l.insertionSort byCreatedDesc

/-- The `gte('created_at', startDate)` filter, attached only when a
start date is set; a date string compares as midnight of that day. -/
def startFilter (historyStartDate : Option ℕ) (t : Transaction) : Bool :=
  match historyStartDate with
  | some s => decide (dayStart s ≤ t.created_at)
  | none => true

/-- The `lt('created_at', end + 1 day)` filter, attached only when an
end date is set: the handler adds one day to the end date and compares
strictly below midnight of that next day. -/
def endFilter (historyEndDate : Option ℕ) (t : Transaction) : Bool :=
  match historyEndDate with
  | some e => decide (t.created_at < dayStart (e + 1))
  | none => true

/-- Query `loadTransactions`: select the customer's rows, apply the optional
date-range filters, and order newest-first.  The filtering and ordering
are executed by the external store (modelled from the spec, §6); the
query construction — equality on `customer_id`, `gte` on the start
date, `lt` on end date + 1 day, descending order — is the handler's. -/
def loadTransactions (store : List Transaction) (customerId : ℕ)
    (historyStartDate historyEndDate : Option ℕ) : List Transaction :=
  orderByCreatedDesc (store.filter (fun t =>
    (t.customer_id == customerId)
      && startFilter historyStartDate t
      && endFilter historyEndDate t))

/-- JavaScript `Array.prototype.slice(a, b)` for in-range indices. -/
def jsSlice {α : Type} (l : List α) (a b : ℕ) : List α :=
  (l.drop a).take (b - a)

/-- Slice `paginatedTransactions = transactions.slice((page - 1) * pageSize, page * pageSize)`. -/
def paginatedTransactions (transactions : List Transaction)
    (historyPage historyPageSize : ℕ) : List Transaction :=
  jsSlice transactions ((historyPage - 1) * historyPageSize) (historyPage * historyPageSize)

/-- Count `totalPages = Math.ceil(transactions.length / historyPageSize)`:
real division then ceiling. -/
def totalPages (count pageSize : ℕ) : ℤ :=
  ⌈(count : ℚ) / (pageSize : ℚ)⌉

/-- The page count as displayed: `totalPages || 1`, i.e. 1 when
`totalPages` is zero. -/
def displayedTotalPages (count pageSize : ℕ) : ℤ :=
  if totalPages count pageSize = 0 then 1 else totalPages count pageSize

/-! ## Customer lookup -/

/-- A row of the `customers` table. -/
structure Customer where
  id : ℕ
  phone_number : String
  name : Option String
  total_points : ℤ
deriving DecidableEq

/-- The test `/^\d{7,}$/.test(input)`: the whole input is seven or more
digits. -/
def isPhoneInput (s : String) : Bool :=
  decide (7 ≤ s.length) && s.data.all (fun c => c.isDigit)

/-- Spec-side rendering of the regular expression `^\d{7,}$`: at least
seven characters and every character a digit. -/
def matchesPhoneRegex (s : String) : Prop :=
  7 ≤ s.data.length ∧ ∀ c ∈ s.data, c.isDigit = true

/-- Modelled from the spec: the store's case-insensitive `ilike` match
on the `name` column, with a pattern containing no wildcards — i.e.
case-insensitive equality; a null name matches nothing. -/
def ilikeExact (name : Option String) (input : String) : Bool :=
  match name with
  | some n => n.toLower == input.toLower
  | none => false

/-- The observable outcomes of `handleSearch`: a phone-branch hit or
miss, a unique name-branch hit, a disambiguation list, or a name-branch
miss. -/
inductive SearchOutcome where
  | phoneFound (c : Customer) : SearchOutcome
  | phoneMiss : SearchOutcome
  | nameFound (c : Customer) : SearchOutcome
  | nameAmbiguous (cs : List Customer) : SearchOutcome
  | nameMiss : SearchOutcome
deriving DecidableEq

/-- The body of `handleSearch` after `input = searchPhone.trim()`: if
the term looks like a phone number, look up by exact `phone_number`
(`maybeSingle` against the unique column, modelled as `find?`);
otherwise filter by case-insensitive name match and dispatch on the
number of results — exactly one selects the customer, more than one
produces the disambiguation list, zero is a miss. -/
def handleSearchCore (customers : List Customer) (input : String) : SearchOutcome :=
  if isPhoneInput input then
    match customers.find? (fun c => c.phone_number == input) with
    | some c => .phoneFound c
    | none => .phoneMiss
  else
    match customers.filter (fun c => ilikeExact c.name input) with
    | [c] => .nameFound c
    | [] => .nameMiss
    | cs => .nameAmbiguous cs

/-- Handler `handleSearch`: trim the raw form input, then dispatch on the
trimmed term. -/
def handleSearch (customers : List Customer) (searchPhone : String) : SearchOutcome :=
  handleSearchCore customers searchPhone.trim

/-! ## Helper lemmas -/

/-- Truncated remainder vanishes exactly on multiples. -/
theorem tmod_eq_zero_iff_dvd (r n : ℤ) : r.tmod n = 0 ↔ n ∣ r := by
  constructor
  · intro h
    have := Int.tmod_add_tdiv r n
    rw [h, zero_add] at this
    exact ⟨r.tdiv n, this.symm⟩
  · rintro ⟨k, rfl⟩
    exact Int.mul_tmod_right n k

/-! ## Claim theorems -/

/-- Claim C1: for every customer balance and every redeemDollars `r`
that is a positive multiple of REDEEM_INCREMENT with
`balance ≥ r * (100 / REDEEM_INCREMENT)`, redeem succeeds, the new
balance equals the old balance minus `r * (100 / REDEEM_INCREMENT)` and
is nonnegative, and exactly one transaction of kind redemption is
appended with amount `r` and delta `-(r * (100 / REDEEM_INCREMENT))` —
in both the $5-increment and the $10-increment variant. -/
theorem c1_redeem_success :
    (∀ balance r : ℤ, 0 < r → 5 ∣ r → r * (100 / 5) ≤ balance →
      handleRedeem5 balance r =
        { total_points := balance - r * (100 / 5),
          inserted := [{ type := ("redeem"), amount := r,
                         points_changed := -(r * (100 / 5)) }],
          error := none } ∧
      0 ≤ balance - r * (100 / 5)) ∧
    (∀ balance r : ℤ, 0 < r → 10 ∣ r → r * (100 / 10) ≤ balance →
      handleRedeem10 balance r =
        { total_points := balance - r * (100 / 10),
          inserted := [{ type := ("redeem"), amount := r,
                         points_changed := -(r * (100 / 10)) }],
          error := none } ∧
      0 ≤ balance - r * (100 / 10)) := by
  constructor
  · rintro balance r _hr ⟨k, rfl⟩ hb
    have hpts : (5 * k) * ((100 : ℤ) / 5) = k * 100 := by ring
    rw [hpts] at hb ⊢
    have htmod : (5 * k).tmod 5 = 0 := Int.mul_tmod_right 5 k
    have htdiv : (5 * k).tdiv 5 = k := Int.mul_tdiv_cancel_left k (by norm_num)
    refine ⟨?_, by omega⟩
    unfold handleRedeem5
    rw [if_neg (by simp [htmod])]
    simp only [htdiv]
    rw [if_neg (not_lt.mpr hb)]
  · rintro balance r _hr ⟨k, rfl⟩ hb
    have hpts : (10 * k) * ((100 : ℤ) / 10) = 10 * k * 10 := by ring
    rw [hpts] at hb ⊢
    have htmod : (10 * k).tmod 10 = 0 := Int.mul_tmod_right 10 k
    refine ⟨?_, by omega⟩
    unfold handleRedeem10
    rw [if_neg (by simp [htmod])]
    simp only []
    rw [if_neg (not_lt.mpr hb)]

/-- Witness for C1 at balance 2000 with `r = 5` ($5 variant) and
`r = 10` ($10 variant). -/
theorem c1_witness :
    (handleRedeem5 2000 5 =
        { total_points := 2000 - 5 * (100 / 5),
          inserted := [{ type := ("redeem"), amount := 5,
                         points_changed := -(5 * (100 / 5)) }],
          error := none } ∧
      (0 : ℤ) ≤ 2000 - 5 * (100 / 5)) ∧
    (handleRedeem10 2000 10 =
        { total_points := 2000 - 10 * (100 / 10),
          inserted := [{ type := ("redeem"), amount := 10,
                         points_changed := -(10 * (100 / 10)) }],
          error := none } ∧
      (0 : ℤ) ≤ 2000 - 10 * (100 / 10)) :=
  ⟨c1_redeem_success.1 2000 5 (by norm_num) (by omega) (by norm_num),
   c1_redeem_success.2 2000 10 (by norm_num) (by omega) (by norm_num)⟩

/-- Claim C4: redeeming an `r` that is not a multiple of
REDEEM_INCREMENT fails with InvalidIncrement; a valid multiple with
`balance < r * (100 / REDEEM_INCREMENT)` fails with InsufficientPoints;
in both failure cases the balance is unchanged and no transaction is
inserted — in both variants. -/
theorem c4_redeem_failures :
    (∀ balance r : ℤ, ¬ (5 ∣ r) →
      handleRedeem5 balance r =
        { total_points := balance, inserted := [], error := some .invalidIncrement }) ∧
    (∀ balance r : ℤ, 5 ∣ r → balance < r * (100 / 5) →
      handleRedeem5 balance r =
        { total_points := balance, inserted := [], error := some .insufficientPoints }) ∧
    (∀ balance r : ℤ, ¬ (10 ∣ r) →
      handleRedeem10 balance r =
        { total_points := balance, inserted := [], error := some .invalidIncrement }) ∧
    (∀ balance r : ℤ, 10 ∣ r → balance < r * (100 / 10) →
      handleRedeem10 balance r =
        { total_points := balance, inserted := [], error := some .insufficientPoints }) := by
  refine ⟨?_, ?_, ?_, ?_⟩
  · intro balance r hdvd
    unfold handleRedeem5
    rw [if_pos (by simpa [tmod_eq_zero_iff_dvd] using hdvd)]
  · rintro balance r ⟨k, rfl⟩ hb
    have hpts : (5 * k) * ((100 : ℤ) / 5) = k * 100 := by ring
    rw [hpts] at hb
    have htmod : (5 * k).tmod 5 = 0 := Int.mul_tmod_right 5 k
    have htdiv : (5 * k).tdiv 5 = k := Int.mul_tdiv_cancel_left k (by norm_num)
    unfold handleRedeem5
    rw [if_neg (by simp [htmod])]
    simp only [htdiv]
    rw [if_pos hb]
  · intro balance r hdvd
    unfold handleRedeem10
    rw [if_pos (by simpa [tmod_eq_zero_iff_dvd] using hdvd)]
  · rintro balance r ⟨k, rfl⟩ hb
    have hpts : (10 * k) * ((100 : ℤ) / 10) = 10 * k * 10 := by ring
    rw [hpts] at hb
    have htmod : (10 * k).tmod 10 = 0 := Int.mul_tmod_right 10 k
    unfold handleRedeem10
    rw [if_neg (by simp [htmod])]
    simp only []
    rw [if_pos hb]

/-- Witness for C4: `r = 7` is not a multiple of 5 (and not of 10),
and `r = 5` (resp. `r = 10`) is unaffordable on a balance of 50. -/
theorem c4_witness :
    handleRedeem5 50 7 =
      { total_points := 50, inserted := [], error := some .invalidIncrement } ∧
    handleRedeem5 50 5 =
      { total_points := 50, inserted := [], error := some .insufficientPoints } ∧
    handleRedeem10 50 7 =
      { total_points := 50, inserted := [], error := some .invalidIncrement } ∧
    handleRedeem10 50 10 =
      { total_points := 50, inserted := [], error := some .insufficientPoints } :=
  ⟨c4_redeem_failures.1 50 7 (by omega),
   c4_redeem_failures.2.1 50 5 (by omega) (by norm_num),
   c4_redeem_failures.2.2.1 50 7 (by omega),
   c4_redeem_failures.2.2.2 50 10 (by omega) (by norm_num)⟩

/-- Claim C3: for every customer balance and every positive integer
`d`, accrue succeeds, the new balance equals the old balance plus `d`,
and exactly one transaction of kind accrual is inserted with amount `d`
and delta `+d`. -/
theorem c3_accrue_success (balance d : ℤ) (hd : 0 < d) :
    handleAddPoints (.num (balance : ℚ)) (.num (d : ℚ)) =
      { total_points := .num ((balance : ℚ) + (d : ℚ)),
        inserted := [{ type := ("add"), amount := .num (d : ℚ),
                       points_changed := .num (d : ℚ) }],
        invalidAmount := false } ∧
    (handleAddPoints (.num (balance : ℚ)) (.num (d : ℚ))).inserted.length = 1 := by
  have hle : ¬ ((d : ℚ) ≤ 0) := by exact_mod_cast hd.not_le
  constructor <;>
    simp [handleAddPoints, jsFloor, jsLe, jsAdd, Int.floor_intCast, hle]

/-- Witness for C3 at balance 10 and `d = 3`. -/
theorem c3_witness :
    handleAddPoints (.num ((10 : ℤ) : ℚ)) (.num ((3 : ℤ) : ℚ)) =
      { total_points := .num (((10 : ℤ) : ℚ) + ((3 : ℤ) : ℚ)),
        inserted := [{ type := ("add"), amount := .num ((3 : ℤ) : ℚ),
                       points_changed := .num ((3 : ℤ) : ℚ) }],
        invalidAmount := false } ∧
    (handleAddPoints (.num ((10 : ℤ) : ℚ)) (.num ((3 : ℤ) : ℚ))).inserted.length = 1 :=
  c3_accrue_success 10 3 (by norm_num)

/-- Claim C2, counterexample: the positive non-integer purchase value
2.5 is not rejected — its floor 2 passes the `amount <= 0` guard, the
balance grows by 2 and a transaction is inserted, contradicting the
claim that every non-integer input is rejected with the balance
unchanged. -/
theorem c2_counterexample :
    (0 : ℚ) < 5 / 2 ∧ (5 / 2 : ℚ).den ≠ 1 ∧
    handleAddPoints (.num 0) (.num (5 / 2)) =
      { total_points := .num 2,
        inserted := [{ type := ("add"), amount := .num 2, points_changed := .num 2 }],
        invalidAmount := false } := by
  refine ⟨by norm_num, by norm_num, ?_⟩
  have hfl : ⌊(5 / 2 : ℚ)⌋ = 2 := by
    rw [Int.floor_eq_iff]
    norm_num
  have hle : ¬ (((2 : ℤ) : ℚ) ≤ 0) := by norm_num
  simp [handleAddPoints, jsFloor, jsLe, jsAdd, hfl, hle]

/-- Claim C2 as amended: a numeric purchase value is rejected with
InvalidAmount (balance unchanged, nothing inserted) exactly when its
floor is not positive — in particular every value `≤ 0` and every value
`< 1` is rejected; but a non-integer value `≥ 1` is NOT rejected: it is
floored and the floored amount is accrued. -/
theorem c2_accrue_invalid_amended :
    (∀ balance q : ℚ, q ≤ 0 →
      handleAddPoints (.num balance) (.num q) =
        { total_points := .num balance, inserted := [], invalidAmount := true }) ∧
    (∀ balance q : ℚ, q < 1 →
      handleAddPoints (.num balance) (.num q) =
        { total_points := .num balance, inserted := [], invalidAmount := true }) ∧
    (∀ balance q : ℚ, 1 ≤ q →
      handleAddPoints (.num balance) (.num q) =
        { total_points := .num (balance + (⌊q⌋ : ℚ)),
          inserted := [{ type := ("add"), amount := .num (⌊q⌋ : ℚ),
                         points_changed := .num (⌊q⌋ : ℚ) }],
          invalidAmount := false }) := by
  have reject : ∀ balance q : ℚ, q < 1 →
      handleAddPoints (.num balance) (.num q) =
        { total_points := .num balance, inserted := [], invalidAmount := true } := by
    intro balance q hq
    have h1 : ⌊q⌋ < 1 := Int.floor_lt.mpr (by exact_mod_cast hq)
    have hle : ((⌊q⌋ : ℤ) : ℚ) ≤ 0 := by exact_mod_cast (by omega : ⌊q⌋ ≤ 0)
    simp [handleAddPoints, jsFloor, jsLe, hle]
  refine ⟨fun balance q hq => reject balance q (by linarith), reject, ?_⟩
  intro balance q hq
  have h1 : (1 : ℤ) ≤ ⌊q⌋ := Int.le_floor.mpr (by exact_mod_cast hq)
  have hle : ¬ (((⌊q⌋ : ℤ) : ℚ) ≤ 0) := by
    push_neg
    exact_mod_cast (by omega : (0 : ℤ) < ⌊q⌋)
  simp [handleAddPoints, jsFloor, jsLe, jsAdd, hle]

/-- Witness for the amended C2: `-1` is rejected, `5/2` is accepted
with its floor accrued. -/
theorem c2_witness :
    handleAddPoints (.num 0) (.num (-1)) =
      { total_points := .num 0, inserted := [], invalidAmount := true } ∧
    handleAddPoints (.num 0) (.num (5 / 2)) =
      { total_points := .num (0 + (⌊(5 / 2 : ℚ)⌋ : ℚ)),
        inserted := [{ type := ("add"), amount := .num (⌊(5 / 2 : ℚ)⌋ : ℚ),
                       points_changed := .num (⌊(5 / 2 : ℚ)⌋ : ℚ) }],
        invalidAmount := false } :=
  ⟨c2_accrue_invalid_amended.1 0 (-1) (by norm_num),
   c2_accrue_invalid_amended.2.2 0 (5 / 2) (by norm_num)⟩

/-- Claim C9: a purchase input whose numeric conversion is NaN (as a
non-numeric string under JavaScript `Number(...)`) is not caught by the
`amount <= 0` guard — the comparison is false for NaN — so the handler
proceeds and writes a NaN balance (and a NaN transaction) instead of
failing with InvalidAmount. -/
theorem c9_nan_accrue (balance : ℚ) :
    handleAddPoints (.num balance) .NaN =
      { total_points := .NaN,
        inserted := [{ type := ("add"), amount := .NaN, points_changed := .NaN }],
        invalidAmount := false } := rfl

/-- Claim C10, counterexample: the non-positive redemption amount `-3`
IS rejected (as InvalidIncrement, since `-3` is not a multiple of 5),
so the clause "redeem never rejects non-positive redemption amounts" is
false as stated. -/
theorem c10_counterexample :
    (-3 : ℤ) ≤ 0 ∧
    handleRedeem5 0 (-3) =
      { total_points := 0, inserted := [], error := some .invalidIncrement } := by
  refine ⟨by norm_num, ?_⟩
  unfold handleRedeem5
  rw [if_pos (by decide)]

/-- Claim C10 as amended: for every negative multiple of
REDEEM_INCREMENT and every nonnegative balance, redeem passes both the
increment check and the insufficient-points check, succeeds, and
increases the balance by the corresponding positive point amount,
recording a redemption transaction with a negative dollar amount and a
positive delta; redeem has no positivity check — it never rejects a
non-positive amount that is a multiple of REDEEM_INCREMENT (only
non-multiples are rejected).  Both variants behave the same way. -/
theorem c10_redeem_negative_amended :
    (∀ balance r : ℤ, 0 ≤ balance → r < 0 → 5 ∣ r →
      handleRedeem5 balance r =
        { total_points := balance - r * 20,
          inserted := [{ type := ("redeem"), amount := r, points_changed := -(r * 20) }],
          error := none } ∧
      balance < balance - r * 20 ∧ 0 < -(r * 20)) ∧
    (∀ balance r : ℤ, 0 ≤ balance → r ≤ 0 → 5 ∣ r →
      (handleRedeem5 balance r).error = none) ∧
    (∀ balance r : ℤ, 0 ≤ balance → r < 0 → 10 ∣ r →
      handleRedeem10 balance r =
        { total_points := balance - r * 10,
          inserted := [{ type := ("redeem"), amount := r, points_changed := -(r * 10) }],
          error := none } ∧
      balance < balance - r * 10 ∧ 0 < -(r * 10)) ∧
    (∀ balance r : ℤ, 0 ≤ balance → r ≤ 0 → 10 ∣ r →
      (handleRedeem10 balance r).error = none) := by
  have succ5 : ∀ balance r : ℤ, 0 ≤ balance → r ≤ 0 → 5 ∣ r →
      handleRedeem5 balance r =
        { total_points := balance - r * 20,
          inserted := [{ type := ("redeem"), amount := r, points_changed := -(r * 20) }],
          error := none } := by
    rintro balance r hb hr ⟨k, rfl⟩
    have htmod : (5 * k).tmod 5 = 0 := Int.mul_tmod_right 5 k
    have htdiv : (5 * k).tdiv 5 = k := Int.mul_tdiv_cancel_left k (by norm_num)
    have hk : k ≤ 0 := by omega
    unfold handleRedeem5
    rw [if_neg (by simp [htmod])]
    simp only [htdiv]
    rw [if_neg (by omega)]
    have : k * 100 = 5 * k * 20 := by ring
    rw [this]
  have succ10 : ∀ balance r : ℤ, 0 ≤ balance → r ≤ 0 → 10 ∣ r →
      handleRedeem10 balance r =
        { total_points := balance - r * 10,
          inserted := [{ type := ("redeem"), amount := r, points_changed := -(r * 10) }],
          error := none } := by
    rintro balance r hb hr ⟨k, rfl⟩
    have htmod : (10 * k).tmod 10 = 0 := Int.mul_tmod_right 10 k
    have hk : k ≤ 0 := by omega
    unfold handleRedeem10
    rw [if_neg (by simp [htmod])]
    simp only []
    rw [if_neg (by omega)]
  refine ⟨?_, ?_, ?_, ?_⟩
  · intro balance r hb hr hdvd
    refine ⟨succ5 balance r hb hr.le hdvd, ?_, ?_⟩ <;>
      · obtain ⟨k, rfl⟩ := hdvd
        have hk : k < 0 := by omega
        omega
  · intro balance r hb hr hdvd
    rw [succ5 balance r hb hr hdvd]
  · intro balance r hb hr hdvd
    refine ⟨succ10 balance r hb hr.le hdvd, ?_, ?_⟩ <;>
      · obtain ⟨k, rfl⟩ := hdvd
        have hk : k < 0 := by omega
        omega
  · intro balance r hb hr hdvd
    rw [succ10 balance r hb hr hdvd]

/-- Witness for the amended C10 at balance 0, `r = -5` ($5 variant)
and `r = -10` ($10 variant). -/
theorem c10_witness :
    (handleRedeem5 0 (-5) =
        { total_points := 0 - (-5) * 20,
          inserted := [{ type := ("redeem"), amount := -5, points_changed := -((-5) * 20) }],
          error := none } ∧
      (0 : ℤ) < 0 - (-5) * 20 ∧ (0 : ℤ) < -((-5) * 20)) ∧
    (handleRedeem5 0 0).error = none ∧
    (handleRedeem10 0 (-10) =
        { total_points := 0 - (-10) * 10,
          inserted := [{ type := ("redeem"), amount := -10, points_changed := -((-10) * 10) }],
          error := none } ∧
      (0 : ℤ) < 0 - (-10) * 10 ∧ (0 : ℤ) < -((-10) * 10)) ∧
    (handleRedeem10 0 0).error = none :=
  ⟨c10_redeem_negative_amended.1 0 (-5) (by norm_num) (by norm_num) (by omega),
   c10_redeem_negative_amended.2.1 0 0 (by norm_num) (by norm_num) (by omega),
   c10_redeem_negative_amended.2.2.1 0 (-10) (by norm_num) (by norm_num) (by omega),
   c10_redeem_negative_amended.2.2.2 0 0 (by norm_num) (by norm_num) (by omega)⟩

/-- The $5 options loop started at the `i`-th multiple collects the
multiples of 5 from the `i`-th through the `n`-th. -/
theorem optionsGo5_eq (fuel : ℕ) : ∀ i n : ℕ, n + 1 - i ≤ fuel → 0 < i →
    optionsGo5 (i * 5) (n * 5) = (List.range' i (n + 1 - i)).map (fun j => j * 5) := by
  induction fuel with
  | zero =>
    intro i n hf hi
    have hz : n + 1 - i = 0 := by omega
    rw [hz]
    unfold optionsGo5
    rw [dif_neg (by omega)]
    simp
  | succ fuel ih =>
    intro i n hf hi
    by_cases hin : i ≤ n
    · unfold optionsGo5
      rw [dif_pos (by omega : i * 5 ≤ n * 5)]
      have h1 : i * 5 + 5 = (i + 1) * 5 := by ring
      rw [h1, ih (i + 1) n (by omega) (by omega)]
      have h2 : n + 1 - i = (n - i) + 1 := by omega
      have h3 : n + 1 - (i + 1) = n - i := by omega
      rw [h2, h3, List.range'_succ]
      simp
    · have hz : n + 1 - i = 0 := by omega
      rw [hz]
      unfold optionsGo5
      rw [dif_neg (by omega)]
      simp

/-- The $10 options loop started at the `i`-th multiple collects the
multiples of 10 from the `i`-th through the `n`-th. -/
theorem optionsGo10_eq (fuel : ℕ) : ∀ i n : ℕ, n + 1 - i ≤ fuel → 0 < i →
    optionsGo10 (i * 10) (n * 10) = (List.range' i (n + 1 - i)).map (fun j => j * 10) := by
  induction fuel with
  | zero =>
    intro i n hf hi
    have hz : n + 1 - i = 0 := by omega
    rw [hz]
    unfold optionsGo10
    rw [dif_neg (by omega)]
    simp
  | succ fuel ih =>
    intro i n hf hi
    by_cases hin : i ≤ n
    · unfold optionsGo10
      rw [dif_pos (by omega : i * 10 ≤ n * 10)]
      have h1 : i * 10 + 10 = (i + 1) * 10 := by ring
      rw [h1, ih (i + 1) n (by omega) (by omega)]
      have h2 : n + 1 - i = (n - i) + 1 := by omega
      have h3 : n + 1 - (i + 1) = n - i := by omega
      rw [h2, h3, List.range'_succ]
      simp
    · have hz : n + 1 - i = 0 := by omega
      rw [hz]
      unfold optionsGo10
      rw [dif_neg (by omega)]
      simp

/-- Closed form of the $5 variant: the `j * 5` for `j = 1 .. ⌊points/100⌋`. -/
theorem getRedemptionOptions5_eq (points : ℕ) :
    getRedemptionOptions5 points =
      (List.range' 1 (points / 100)).map (fun j => j * 5) := by
  have h := optionsGo5_eq (points / 100 + 1) 1 (points / 100) (by omega) (by omega)
  simpa [getRedemptionOptions5] using h

/-- Closed form of the $10 variant: the `j * 10` for `j = 1 .. ⌊points/100⌋`. -/
theorem getRedemptionOptions10_eq (points : ℕ) :
    getRedemptionOptions10 points =
      (List.range' 1 (points / 100)).map (fun j => j * 10) := by
  have h := optionsGo10_eq (points / 100 + 1) 1 (points / 100) (by omega) (by omega)
  simpa [getRedemptionOptions10] using h

/-- Claim C6: for every nonnegative balance, the redemption options are
exactly the multiples of REDEEM_INCREMENT from REDEEM_INCREMENT up to
`⌊balance / 100⌋ * REDEEM_INCREMENT`, in ascending order, and the list
is empty when the balance is below 100; with REDEEM_INCREMENT = 5 a
balance of 250 yields `[5, 10]` and a balance of 90 yields `[]`.  The
$10 variant enumerates the corresponding multiples of 10. -/
theorem c6_redemption_options :
    (∀ points : ℕ, getRedemptionOptions5 points =
        (List.range' 1 (points / 100)).map (fun j => j * 5)) ∧
    (∀ points x : ℕ, x ∈ getRedemptionOptions5 points ↔
        ∃ j : ℕ, 1 ≤ j ∧ j ≤ points / 100 ∧ x = j * 5) ∧
    (∀ points : ℕ, (getRedemptionOptions5 points).Sorted (· < ·)) ∧
    (∀ points : ℕ, points < 100 → getRedemptionOptions5 points = []) ∧
    getRedemptionOptions5 250 = [5, 10] ∧
    getRedemptionOptions5 90 = [] ∧
    (∀ points : ℕ, getRedemptionOptions10 points =
        (List.range' 1 (points / 100)).map (fun j => j * 10)) ∧
    (∀ points : ℕ, (getRedemptionOptions10 points).Sorted (· < ·)) := by
  refine ⟨getRedemptionOptions5_eq, ?_, ?_, ?_, ?_, ?_, getRedemptionOptions10_eq, ?_⟩
  · intro points x
    rw [getRedemptionOptions5_eq]
    simp only [List.mem_map, List.mem_range'_1]
    constructor
    · rintro ⟨j, ⟨h1, h2⟩, rfl⟩
      exact ⟨j, h1, by omega, rfl⟩
    · rintro ⟨j, h1, h2, rfl⟩
      exact ⟨j, ⟨h1, by omega⟩, rfl⟩
  · intro points
    rw [getRedemptionOptions5_eq]
    exact List.pairwise_map.mpr
      ((List.pairwise_lt_range' 1 (points / 100)).imp (fun h => by omega))
  · intro points hlt
    rw [getRedemptionOptions5_eq, Nat.div_eq_of_lt hlt]
    rfl
  · rw [getRedemptionOptions5_eq]
    rfl
  · rw [getRedemptionOptions5_eq]
    rfl
  · intro points
    rw [getRedemptionOptions10_eq]
    exact List.pairwise_map.mpr
      ((List.pairwise_lt_range' 1 (points / 100)).imp (fun h => by omega))

/-- Witness for C6: a balance of 99 affords no redemption. -/
theorem c6_witness : getRedemptionOptions5 99 = [] :=
  c6_redemption_options.2.2.2.1 99 (by norm_num)

/-- Ceiling of a quotient of naturals as natural division. -/
theorem ceil_div_eq_add_pred_div (c p : ℕ) (hp : 0 < p) :
    ⌈(c : ℚ) / (p : ℚ)⌉ = (((c + p - 1) / p : ℕ) : ℤ) := by
  set q := (c + p - 1) / p with hqdef
  set r := (c + p - 1) % p with hrdef
  have hdm : p * q + r = c + p - 1 := Nat.div_add_mod _ _
  have hr : r < p := Nat.mod_lt _ hp
  have h1 : 1 ≤ c + p := by omega
  have key : (p : ℚ) * (q : ℚ) + (r : ℚ) = (c : ℚ) + (p : ℚ) - 1 := by
    have hcast := congrArg (fun n : ℕ => (n : ℚ)) hdm
    push_cast [Nat.cast_sub h1] at hcast
    linarith [hcast]
  have hpQ : (0 : ℚ) < (p : ℚ) := by exact_mod_cast hp
  have hrQ0 : (0 : ℚ) ≤ (r : ℚ) := by positivity
  have hrQ1 : (r : ℚ) + 1 ≤ (p : ℚ) := by exact_mod_cast hr
  rw [Int.ceil_eq_iff]
  constructor
  · rw [lt_div_iff₀ hpQ]
    push_cast
    nlinarith [key, hrQ0]
  · rw [div_le_iff₀ hpQ]
    push_cast
    nlinarith [key, hrQ1]

/-- Claim C5: the page count is the ceiling of `count / pageSize`
(equivalently `(count + pageSize - 1) / pageSize` in integer
arithmetic), and the displayed value is that ceiling with a minimum of
1 — in particular 1 when the list is empty; `paginate([], 1, 10)`
yields an empty slice and a displayed page count of 1. -/
theorem c5_pagination (count pageSize : ℕ) (hp : 0 < pageSize) :
    totalPages count pageSize = ⌈(count : ℚ) / (pageSize : ℚ)⌉ ∧
    totalPages count pageSize = (((count + pageSize - 1) / pageSize : ℕ) : ℤ) ∧
    displayedTotalPages count pageSize = max (totalPages count pageSize) 1 ∧
    (count = 0 → displayedTotalPages count pageSize = 1) ∧
    paginatedTransactions [] 1 10 = [] ∧
    displayedTotalPages 0 10 = 1 := by
  have h0 : 0 ≤ totalPages count pageSize := Int.ceil_nonneg (by positivity)
  refine ⟨rfl, ceil_div_eq_add_pred_div count pageSize hp, ?_, ?_, rfl,
    by norm_num [displayedTotalPages, totalPages]⟩
  · unfold displayedTotalPages
    by_cases h : totalPages count pageSize = 0
    · rw [if_pos h]
      omega
    · rw [if_neg h]
      omega
  · intro hc
    subst hc
    simp [displayedTotalPages, totalPages]

/-- Witness for C5 at 25 transactions and page size 10. -/
theorem c5_witness :
    totalPages 25 10 = ⌈((25 : ℕ) : ℚ) / ((10 : ℕ) : ℚ)⌉ ∧
    totalPages 25 10 = ((((25 + 10 - 1) / 10 : ℕ)) : ℤ) ∧
    displayedTotalPages 25 10 = max (totalPages 25 10) 1 ∧
    ((25 : ℕ) = 0 → displayedTotalPages 25 10 = 1) ∧
    paginatedTransactions [] 1 10 = [] ∧
    displayedTotalPages 0 10 = 1 :=
  c5_pagination 25 10 (by norm_num)

/-- Claim C7: the history query returns exactly the customer's
transactions, ordered descending by creation time, keeping a
transaction iff its creation time is at least the start date's midnight
(when a start date is given) and strictly before midnight of the day
after the end date (when an end date is given); in particular with
startDate = endDate = d every transaction created any time on day `d`
is included. -/
theorem c7_history (store : List Transaction) (cid : ℕ) (sd ed : Option ℕ) :
    (loadTransactions store cid sd ed).Sorted byCreatedDesc ∧
    (∀ t, t ∈ loadTransactions store cid sd ed ↔
      t ∈ store ∧ t.customer_id = cid ∧
      (∀ s, sd = some s → dayStart s ≤ t.created_at) ∧
      (∀ e, ed = some e → t.created_at < dayStart (e + 1))) ∧
    (∀ d t, t ∈ store → t.customer_id = cid →
      dayStart d ≤ t.created_at → t.created_at < dayStart (d + 1) →
      t ∈ loadTransactions store cid (some d) (some d)) := by
  have hmem : ∀ t, t ∈ loadTransactions store cid sd ed ↔
      t ∈ store ∧ t.customer_id = cid ∧
      (∀ s, sd = some s → dayStart s ≤ t.created_at) ∧
      (∀ e, ed = some e → t.created_at < dayStart (e + 1)) := by
    intro t
    unfold loadTransactions orderByCreatedDesc
    rw [(List.perm_insertionSort byCreatedDesc _).mem_iff, List.mem_filter]
    cases sd <;> cases ed <;>
      simp [startFilter, endFilter, and_assoc]
  have hmem' : ∀ (d : ℕ) (t : Transaction), t ∈ loadTransactions store cid (some d) (some d) ↔
      t ∈ store ∧ t.customer_id = cid ∧
      (∀ s, (some d : Option ℕ) = some s → dayStart s ≤ t.created_at) ∧
      (∀ e, (some d : Option ℕ) = some e → t.created_at < dayStart (e + 1)) := by
    intro d t
    unfold loadTransactions orderByCreatedDesc
    rw [(List.perm_insertionSort byCreatedDesc _).mem_iff, List.mem_filter]
    simp [startFilter, endFilter, and_assoc]
  refine ⟨List.sorted_insertionSort byCreatedDesc _, hmem, ?_⟩
  intro d t ht hc h1 h2
  exact (hmem' d t).mpr
    ⟨ht, hc, fun s hs => by cases hs; exact h1, fun e he => by cases he; exact h2⟩

/-- Witness for C7: a transaction created one hour into day 2 is
returned by the query filtered to that single day. -/
theorem c7_witness :
    (⟨1, 4, 2 * 86400 + 3600⟩ : Transaction) ∈
      loadTransactions [⟨1, 4, 2 * 86400 + 3600⟩] 4 (some 2) (some 2) :=
  (c7_history [⟨1, 4, 2 * 86400 + 3600⟩] 4 (some 2) (some 2)).2.2
    2 ⟨1, 4, 2 * 86400 + 3600⟩ (List.mem_singleton_self _) rfl
    (by norm_num [dayStart]) (by norm_num [dayStart])

/-- Claim C8: the trimmed search term takes the phone branch — an exact
lookup on `phone_number` — exactly when it matches `^\d{7,}$`;
otherwise the name branch runs a case-insensitive match where zero
results give the not-found state, exactly one result selects that
customer, and several results produce the disambiguation list. -/
theorem c8_search (customers : List Customer) (input : String) :
    (∀ s, handleSearch customers s = handleSearchCore customers s.trim) ∧
    (isPhoneInput input = true ↔ matchesPhoneRegex input) ∧
    (∀ n pat : String, ilikeExact (some n) pat = true ↔ n.toLower = pat.toLower) ∧
    (isPhoneInput input = true →
      (∃ c, handleSearchCore customers input = .phoneFound c ∧
            c ∈ customers ∧ c.phone_number = input) ∨
      (handleSearchCore customers input = .phoneMiss ∧
       ∀ c ∈ customers, c.phone_number ≠ input)) ∧
    (isPhoneInput input = false →
      ((customers.filter (fun c => ilikeExact c.name input)) = [] →
        handleSearchCore customers input = .nameMiss) ∧
      (∀ c, customers.filter (fun c => ilikeExact c.name input) = [c] →
        handleSearchCore customers input = .nameFound c) ∧
      (1 < (customers.filter (fun c => ilikeExact c.name input)).length →
        handleSearchCore customers input =
          .nameAmbiguous (customers.filter (fun c => ilikeExact c.name input)))) := by
  refine ⟨fun s => rfl, ?_, ?_, ?_, ?_⟩
  · simp only [isPhoneInput, matchesPhoneRegex, Bool.and_eq_true, decide_eq_true_eq,
      List.all_eq_true]
    exact Iff.rfl
  · intro n pat
    simp [ilikeExact]
  · intro hp
    unfold handleSearchCore
    rw [if_pos hp]
    cases hfind : customers.find? (fun c => c.phone_number == input) with
    | some c =>
      left
      refine ⟨c, rfl, List.mem_of_find?_eq_some hfind, ?_⟩
      have := List.find?_some hfind
      simpa using this
    | none =>
      right
      refine ⟨rfl, ?_⟩
      intro c hc
      have := List.find?_eq_none.mp hfind c hc
      simpa using this
  · intro hp
    unfold handleSearchCore
    rw [if_neg (by simp [hp])]
    refine ⟨?_, ?_, ?_⟩
    · intro hf
      rw [hf]
    · intro c hf
      rw [hf]
    · intro hlen
      cases hf : customers.filter (fun c => ilikeExact c.name input) with
      | nil => rw [hf] at hlen; simp at hlen
      | cons a tail =>
        cases tail with
        | nil => rw [hf] at hlen; simp at hlen
        | cons b tail2 => rfl

/-- Witness for C8: searching an empty customer table for a short
non-numeric term takes the name branch and misses. -/
theorem c8_witness : handleSearchCore [] ("al") = SearchOutcome.nameMiss :=
  ((c8_search [] ("al")).2.2.2.2 (by decide)).1 (by rfl)

end CustomerReward
